import Mathlib

/-!
Verification development for the compact-contracts simulation harness and
CLI tooling.  The definitions below are a shallow embedding of the
TypeScript sources: the `BaseContractSimulator` state manager, the
`NonFungibleTokenSimulator` caller handling (`getCallerContext`,
`setCaller`), the circuit-proxy call paths, the direct
`AccountSimulator.receiveCoin` call path, the `FormatterFileDiscovery`
file discovery, and `CompactCompiler.fromArgs` argument parsing.
-/

namespace CompactSim

/-! ### Vendor runtime shapes

The `@midnight-ntwrk/compact-runtime` package supplies the context types
consumed by the harness.  They are modelled minimally: the harness never
inspects the payloads, it only threads them around. -/

/-- Vendor shape: the on-chain contract state; the harness only reads its
`data` field when building a `QueryContext`. -/
structure ContractState where
  data : Nat
deriving DecidableEq, Repr

/-- Vendor shape: the transaction context built from contract state data
and a contract address. -/
structure QueryContext where
  state : Nat
  address : String
deriving DecidableEq, Repr

/-- Vendor shape: local Zswap transaction state, scoped to one coin
public key. -/
structure ZswapLocalState where
  coinPublicKey : String
  coins : List Nat
deriving DecidableEq, Repr

/-- Vendor function `emptyZswapLocalState(caller)`: a fresh empty local
state scoped to `caller`. -/
def emptyZswapLocalState (caller : String) : ZswapLocalState :=
  { coinPublicKey := caller, coins := [] }

/-- The `CircuitContext` record threaded through every circuit call
(`currentPrivateState`, `currentZswapLocalState`, `originalState`,
`transactionContext`). -/
structure CircuitContext (P : Type) where
  currentPrivateState : P
  currentZswapLocalState : ZswapLocalState
  originalState : ContractState
  transactionContext : QueryContext
deriving DecidableEq, Repr

/-- Vendor shape: the `{ result, context }` pair returned by every
circuit function. -/
structure CircuitResult (P R : Type) where
  result : R
  context : CircuitContext P
deriving DecidableEq, Repr

/-- A vendor circuit function `(context, ...args) => { result, context }`.
A thrown contract error (e.g. an assertion message) is modelled as
`Except.error`. -/
def Circuit (P A R E : Type) : Type :=
  CircuitContext P → A → Except E (CircuitResult P R)

/-! ### BaseContractSimulator (state manager)

From `BaseContractSimulator.ts`: owns the single mutable circuit-context
slot of one simulator instance. -/

/-- The state manager: a single `CircuitContext` slot
(`private context` in `BaseContractSimulator`). -/
structure BaseContractSimulator (P : Type) where
  context : CircuitContext P
deriving DecidableEq, Repr

/-- `BaseContractSimulator.getContext()`. -/
def getContext {P : Type} (s : BaseContractSimulator P) : CircuitContext P :=
  s.context

/-- `BaseContractSimulator.setContext(newContext)`: wholesale replacement
of the stored context. -/
def setContext {P : Type} (s : BaseContractSimulator P)
    (newContext : CircuitContext P) : BaseContractSimulator P :=
  { s with context := newContext }

/-- `BaseContractSimulator.updatePrivateState(newPrivateState)`: assigns
`this.context.currentPrivateState`, an update of one field of the stored
context. -/
def updatePrivateState {P : Type} (s : BaseContractSimulator P)
    (newPrivateState : P) : BaseContractSimulator P :=
  { s with context := { s.context with currentPrivateState := newPrivateState } }

/-- Vendor shape: the constructor context built by
`constructorContext(privateState, coinPK)`. -/
structure ConstructorContext (P : Type) where
  initialPrivateState : P
  coinPublicKey : String
deriving DecidableEq, Repr

/-- Vendor function `constructorContext(privateState, coinPK)`. -/
def constructorContext {P : Type} (privateState : P) (coinPK : String) :
    ConstructorContext P :=
  { initialPrivateState := privateState, coinPublicKey := coinPK }

/-- Vendor shape: the record returned by a contract's `initialState`. -/
structure InitialState (P : Type) where
  currentPrivateState : P
  currentContractState : ContractState
  currentZswapLocalState : ZswapLocalState
deriving DecidableEq, Repr

/-- The `BaseContractSimulator` constructor: builds the constructor
context, calls the vendor `initialState` (which may throw), and only then
stores the resulting circuit context.  A thrown error propagates and no
context is ever stored. -/
def mkBaseContractSimulator {P Args E : Type}
    (initialState : ConstructorContext P → Args → Except E (InitialState P))
    (privateState : P) (coinPK : String) (contractAddress : Option String)
    (contractArgs : Args) : Except E (BaseContractSimulator P) :=
  match initialState (constructorContext privateState coinPK) contractArgs with
  | .error e => .error e
  | .ok r =>
      .ok { context :=
        { currentPrivateState := r.currentPrivateState
          currentZswapLocalState := r.currentZswapLocalState
          originalState := r.currentContractState
          transactionContext :=
            { state := r.currentContractState.data
              address := contractAddress.getD coinPK } } }

/-! ### Simulator instance state

From `NonFungibleTokenSimulator` (and the analogous simulators): a state
manager plus the `callerOverride` field, `null` at construction. -/

/-- The mutable state of one simulator instance: the embedded state
manager and the `callerOverride` field. -/
structure SimState (P : Type) where
  stateManager : BaseContractSimulator P
  callerOverride : Option String
deriving DecidableEq, Repr

/-- The `circuitContext` getter: delegates to
`stateManager.getContext()`. -/
def circuitContext {P : Type} (s : SimState P) : CircuitContext P :=
  getContext s.stateManager

/-- The `circuitContext` setter: delegates to
`stateManager.setContext(ctx)`; the caller override is untouched. -/
def setCircuitContext {P : Type} (s : SimState P) (ctx : CircuitContext P) :
    SimState P :=
  { s with stateManager := setContext s.stateManager ctx }

/-- `getCallerContext()`: when an override is present, the current
context with its Zswap local state replaced by an empty one scoped to
the override; otherwise the existing context as-is. -/
def getCallerContext {P : Type} (s : SimState P) : CircuitContext P :=
  { circuitContext s with
    currentZswapLocalState :=
      match s.callerOverride with
      | some caller => emptyZswapLocalState caller
      | none => (circuitContext s).currentZswapLocalState }

/-- `setCaller(caller)`: records the caller override. -/
def setCaller {P : Type} (s : SimState P) (caller : Option String) :
    SimState P :=
  { s with callerOverride := caller }

/-! ### Circuit call paths -/

/-- Modelled from the spec: `AbstractContractSimulator.createImpureCircuitProxy`
(implementation not in the bundle; only its re-export and call sites are).
Per the spec, an impure proxy call invokes the underlying vendor circuit
with the context produced by the supplied getter — here
`getCallerContext()`, as wired in `NonFungibleTokenSimulator.impureCircuit`
— then replaces the stored context with `.context` from the call result
via the supplied setter (`circuitContext = ctx`) and returns `.result`.
A thrown error propagates and no write-back happens. -/
def impureCall {P A R E : Type} (f : Circuit P A R E) (s : SimState P)
    (a : A) : Except E R × SimState P :=
  match f (getCallerContext s) a with
  | .ok res => (.ok res.result, setCircuitContext s res.context)
  | .error e => (.error e, s)

/-- Modelled from the spec: `AbstractContractSimulator.createPureCircuitProxy`
(implementation not in the bundle).  Per the spec, a pure proxy call
invokes the underlying vendor circuit with `(currentContext, ...args)` —
the getter wired in `NonFungibleTokenSimulator.pureCircuit` is
`() => this.circuitContext` — and returns only `.result`; the stored
context is left untouched. -/
def pureCall {P A R E : Type} (f : Circuit P A R E) (s : SimState P)
    (a : A) : Except E R × SimState P :=
  (match f (circuitContext s) a with
   | .ok res => .ok res.result
   | .error e => .error e,
   s)

/-- `AccountSimulator.receiveCoin` (and the identical `mint`/`burn`
pattern): calls the vendor impure circuit directly with
`this.circuitContext`, assigns `this.circuitContext = res.context`, and
returns the whole result record.  If the vendor call throws, the
assignment is never reached. -/
def receiveCoin {P A R E : Type} (f : Circuit P A R E) (s : SimState P)
    (coin : A) : Except E (CircuitResult P R) × SimState P :=
  match f (circuitContext s) coin with
  | .ok res => (.ok res, setCircuitContext s res.context)
  | .error e => (.error e, s)

/-- One impure proxy call, keeping only the state (used to run call
sequences). -/
def stepCall {P A R E : Type} (s : SimState P) (c : Circuit P A R E × A) :
    SimState P :=
  (impureCall c.1 s c.2).2

/-- Runs a sequence of impure proxy calls on one simulator instance. -/
def runImpure {P A R E : Type} (calls : List (Circuit P A R E × A))
    (s : SimState P) : SimState P :=
  calls.foldl stepCall s

/-- The simulator state just before the `i`-th call (0-based) of a call
sequence. -/
def stateBefore {P A R E : Type} (calls : List (Circuit P A R E × A))
    (s : SimState P) (i : Nat) : SimState P :=
  runImpure (calls.take i) s

/-! ### CLI file discovery

From `Formatter.ts` (`FormatterFileDiscovery.getCompactFiles`): recursive
directory walk collecting `.compact` files, tolerating unreadable
directories and inaccessible entries. -/

/-- A directory entry as seen through `readdir(dir, withFileTypes)`.
`dir` carries whether its own `readdir` succeeds (the outer `try`) and
its entries; `denied` is an entry whose type checks throw (the inner
`try`). -/
inductive FsEntry where
  | file (name : String)
  | dir (name : String) (readable : Bool) (entries : List FsEntry)
  | denied (name : String)
deriving Repr

/-- Node `path.join(dir, name)` for the simple relative paths the
discovery walk builds. -/
def joinPath (dir name : String) : String :=
  dir ++ "/" ++ name

mutual

/-- The body of `getCompactFiles` applied to one directory entry:
recurse into directories (an unreadable one yields `[]` after a logged
warning), keep a file whose full path ends in `.compact` as
`relative(SRC_DIR, fullPath)` — `rel` is Node `path.relative(SRC_DIR, ·)`
— and skip everything else; an inaccessible entry yields `[]` after a
logged warning. -/
def getCompactFilesEntry (rel : String → String) (dirPath : String) :
    FsEntry → List String
  | .file name =>
      if (joinPath dirPath name).endsWith ".compact" then
        [rel (joinPath dirPath name)]
      else []
  | .denied _ => []
  | .dir name readable entries =>
      if readable then getCompactFilesList rel (joinPath dirPath name) entries
      else []

/-- `Promise.all` over the mapped entry promises followed by `.flat()`:
concatenation of the per-entry results in directory order. -/
def getCompactFilesList (rel : String → String) (dirPath : String) :
    List FsEntry → List String
  | [] => []
  | e :: es =>
      getCompactFilesEntry rel dirPath e ++ getCompactFilesList rel dirPath es

end

/-- `FormatterFileDiscovery.getCompactFiles(dir)`: reads the directory
(returning `[]` after a logged error when unreadable) and flattens the
per-entry results. -/
def getCompactFiles (rel : String → String) (dirPath : String)
    (readable : Bool) (entries : List FsEntry) : List String :=
  if readable then getCompactFilesList rel dirPath entries else []

mutual

/-- Specification-side description of file discovery: the full paths of
the files ending in `.compact` in the accessible part of the tree under
one entry, in traversal order. -/
def compactPathsEntry (dirPath : String) : FsEntry → List String
  | .file name =>
      if (joinPath dirPath name).endsWith ".compact" then
        [joinPath dirPath name]
      else []
  | .denied _ => []
  | .dir name readable entries =>
      if readable then compactPathsList (joinPath dirPath name) entries
      else []

/-- Specification-side description over a directory listing. -/
def compactPathsList (dirPath : String) : List FsEntry → List String
  | [] => []
  | e :: es => compactPathsEntry dirPath e ++ compactPathsList dirPath es

end

/-! ### CompactCompiler.fromArgs

From `Compiler.ts` and `BaseCompactOperation.parseBaseArgs`
(`BaseServices`). -/

/-- Node `String.prototype.startsWith(p)`: whether `p` is a leading
substring of `s` (stated over the character list so it is
kernel-executable). -/
def strStartsWith (s p : String) : Bool :=
  p.data.isPrefixOf s.data

/-- Node `String.prototype.trim()`: strips leading and trailing
whitespace (stated over the character list so it is
kernel-executable). -/
def strTrim (s : String) : String :=
  ⟨((s.data.dropWhile Char.isWhitespace).reverse.dropWhile
      Char.isWhitespace).reverse⟩

/-- The configuration a `CompactCompiler` instance stores: the flags
string (`flags.join(' ')` then `.trim()`), the optional target
directory, and the optional toolchain version. -/
structure CompilerConfig where
  flags : String
  targetDir : Option String
  version : Option String
deriving DecidableEq, Repr

/-- `BaseCompactOperation.parseBaseArgs(args)`: extracts the `--dir`
flag (the last occurrence wins; a missing or `--`-leading directory name
throws) and returns the remaining arguments in order. -/
def parseBaseArgs : List String → Except String (Option String × List String)
  | [] => .ok (none, [])
  | arg :: rest =>
      if arg = "--dir" then
        match rest with
        | next :: rest' =>
            if strStartsWith next "--" then
              .error "--dir flag requires a directory name"
            else
              match parseBaseArgs rest' with
              | .error e => .error e
              | .ok (td, rem) => .ok (some (td.getD next), rem)
        | [] => .error "--dir flag requires a directory name"
      else
        match parseBaseArgs rest with
        | .error e => .error e
        | .ok (td, rem) => .ok (td, arg :: rem)

/-- The flag/version loop of `CompactCompiler.fromArgs`: a `+`-leading
argument sets the version (last one wins), any other argument is
appended to the flags unless already present. -/
def compilerFlagsLoop : List String → List String → Option String →
    List String × Option String
  | [], flags, version => (flags, version)
  | arg :: rest, flags, version =>
      if strStartsWith arg "+" then
        compilerFlagsLoop rest flags (some (arg.drop 1))
      else if flags.contains arg then
        compilerFlagsLoop rest flags version
      else
        compilerFlagsLoop rest (flags ++ [arg]) version

/-- `CompactCompiler.fromArgs(args, env)`: parses the base arguments,
seeds the flag list with `--skip-zk` when `env.SKIP_ZK === 'true'`
(`skipZkEnv`), folds the remaining arguments, and builds the
configuration the `CompactCompiler` constructor stores. -/
def fromArgs (args : List String) (skipZkEnv : Bool) :
    Except String CompilerConfig :=
  match parseBaseArgs args with
  | .error e => .error e
  | .ok (targetDir, remainingArgs) =>
      let initFlags := if skipZkEnv then ["--skip-zk"] else []
      let fv := compilerFlagsLoop remainingArgs initFlags none
      .ok { flags := strTrim (String.intercalate " " fv.1)
            targetDir := targetDir
            version := fv.2 }

/-! ### Concrete fixtures

Executable instances used to exercise the theorems on concrete inputs. -/

/-- A concrete circuit context over `Nat` private state. -/
def sampleCtx : CircuitContext Nat :=
  { currentPrivateState := 0
    currentZswapLocalState := emptyZswapLocalState "00"
    originalState := { data := 0 }
    transactionContext := { state := 0, address := "ad" } }

/-- A concrete state manager. -/
def sampleManager : BaseContractSimulator Nat := { context := sampleCtx }

/-- A concrete simulator state with no caller override. -/
def sampleState : SimState Nat :=
  { stateManager := sampleManager, callerOverride := none }

/-- A concrete vendor circuit: adds its argument to the private state and
reports the sum. -/
def addCircuit : Circuit Nat Nat Nat String := fun ctx a =>
  .ok { result := ctx.currentPrivateState + a
        context := { ctx with currentPrivateState := ctx.currentPrivateState + a } }

/-- A concrete vendor circuit that always throws a contract assertion. -/
def failCircuit : Circuit Nat Nat Nat String := fun _ _ =>
  .error "insufficient balance"

/-- A concrete two-call impure sequence. -/
def sampleCalls : List (Circuit Nat Nat Nat String × Nat) :=
  [(addCircuit, 1), (addCircuit, 2)]

/-- The vendor result of the second `sampleCalls` call. -/
def sampleRes : CircuitResult Nat Nat :=
  { result := 3, context := { sampleCtx with currentPrivateState := 3 } }

/-- The configuration produced from `['--foo', '--skip-zk']` with no
environment variable. -/
def cfgCli : CompilerConfig :=
  { flags := "--foo --skip-zk", targetDir := none, version := none }

/-- The configuration produced from `['--foo']` with `SKIP_ZK=true`. -/
def cfgEnv : CompilerConfig :=
  { flags := "--skip-zk --foo", targetDir := none, version := none }

/-- A concrete vendor `initialState` with a re-initialization guard:
throws unless called with `true`. -/
def guardedInit : ConstructorContext Nat → Bool → Except String (InitialState Nat) :=
  fun cc init =>
    if init then
      .ok { currentPrivateState := cc.initialPrivateState
            currentContractState := { data := 1 }
            currentZswapLocalState := emptyZswapLocalState cc.coinPublicKey }
    else .error "Initializable: contract already initialized"

/-! ### Helper lemmas -/

/-- Setting the circuit context through the simulator setter stores
exactly the given context. -/
theorem circuitContext_setCircuitContext {P : Type} (s : SimState P)
    (c : CircuitContext P) : circuitContext (setCircuitContext s c) = c :=
  rfl

/-- The simulator context setter leaves the caller override untouched. -/
theorem callerOverride_setCircuitContext {P : Type} (s : SimState P)
    (c : CircuitContext P) :
    (setCircuitContext s c).callerOverride = s.callerOverride :=
  rfl

/-- A single impure proxy call never changes the caller override. -/
theorem stepCall_callerOverride {P A R E : Type} (s : SimState P)
    (c : Circuit P A R E × A) :
    (stepCall s c).callerOverride = s.callerOverride := by
  unfold stepCall impureCall
  cases h : c.1 (getCallerContext s) c.2 <;> simp [h, setCircuitContext, setContext]

/-- A sequence of impure proxy calls never changes the caller override. -/
theorem runImpure_callerOverride {P A R E : Type}
    (calls : List (Circuit P A R E × A)) (s : SimState P) :
    (runImpure calls s).callerOverride = s.callerOverride := by
  induction calls generalizing s with
  | nil => rfl
  | cons c rest ih =>
      unfold runImpure at ih ⊢
      rw [List.foldl_cons, ih, stepCall_callerOverride]

/-- The result component of an impure proxy call is the mapped result of
the vendor invocation at the caller context. -/
theorem impureCall_fst {P A R E : Type} (f : Circuit P A R E)
    (s : SimState P) (a : A) :
    (impureCall f s a).1 =
      (f (getCallerContext s) a).map CircuitResult.result := by
  cases h : f (getCallerContext s) a <;> simp [impureCall, h, Except.map]

/-- The state before call `i+1` is obtained from the state before call
`i` by executing call `i`. -/
theorem stateBefore_succ {P A R E : Type} (calls : List (Circuit P A R E × A))
    (s : SimState P) (i : Nat) (hi : i < calls.length) :
    stateBefore calls s (i + 1) =
      stepCall (stateBefore calls s i) (calls.get ⟨i, hi⟩) := by
  unfold stateBefore runImpure
  rw [List.take_succ, List.foldl_append, List.getElem?_eq_getElem hi]
  rfl

/-! ### Claim theorems -/

/-- C7: a pure proxy call invokes the underlying vendor function with the
current stored context prepended to the caller's arguments, returns only
the `.result` field of the vendor's return value, and leaves the
simulator's stored circuit context (indeed the whole simulator state)
unchanged. -/
theorem pure_call_frame {P A R E : Type} (f : Circuit P A R E)
    (s : SimState P) (a : A) :
    (pureCall f s a).2 = s ∧
    (pureCall f s a).1 = (f (circuitContext s) a).map CircuitResult.result := by
  refine ⟨rfl, ?_⟩
  cases h : f (circuitContext s) a <;> simp [pureCall, h, Except.map]

/-- C3: an error thrown by the underlying vendor circuit function
propagates unchanged through both the impure proxy path and the direct
`receiveCoin` path — no retry, no recovery, no wrapping. -/
theorem circuit_error_propagates {P A R E : Type} (f : Circuit P A R E)
    (s : SimState P) (a : A) (e : E) :
    (f (getCallerContext s) a = .error e → (impureCall f s a).1 = .error e) ∧
    (f (circuitContext s) a = .error e → (receiveCoin f s a).1 = .error e) := by
  constructor <;> intro h <;> simp [impureCall, receiveCoin, h]

/-- Witness for C3 at a concrete failing circuit. -/
theorem circuit_error_propagates_witness :
    failCircuit (getCallerContext sampleState) 5 = .error "insufficient balance" ∧
    (impureCall failCircuit sampleState 5).1 = .error "insufficient balance" :=
  ⟨rfl, (circuit_error_propagates failCircuit sampleState 5
    "insufficient balance").1 rfl⟩

/-- C9: when the vendor circuit throws, the simulator state — in
particular the stored circuit context — is exactly what it was before
the call, on both the impure proxy path and the direct `receiveCoin`
path: the write-back happens only after a successful invocation. -/
theorem failed_call_leaves_state {P A R E : Type} (f : Circuit P A R E)
    (s : SimState P) (a : A) (e : E) :
    (f (getCallerContext s) a = .error e → (impureCall f s a).2 = s) ∧
    (f (circuitContext s) a = .error e → (receiveCoin f s a).2 = s) := by
  constructor <;> intro h <;> simp [impureCall, receiveCoin, h]

/-- Witness for C9 at a concrete failing circuit. -/
theorem failed_call_leaves_state_witness :
    failCircuit (circuitContext sampleState) 5 = .error "insufficient balance" ∧
    (receiveCoin failCircuit sampleState 5).2 = sampleState :=
  ⟨rfl, (failed_call_leaves_state failCircuit sampleState 5
    "insufficient balance").2 rfl⟩

/-- C8 counterexample: `updatePrivateState`, an operation of the state
manager, updates the individual field `currentPrivateState` of the
stored context (every other field is preserved), so it is not true that
no state-manager operation updates an individual field of the stored
context. -/
theorem update_private_state_counterexample :
    (updatePrivateState sampleManager 7).context ≠ sampleManager.context ∧
    (updatePrivateState sampleManager 7).context.currentPrivateState = 7 ∧
    (updatePrivateState sampleManager 7).context.currentZswapLocalState =
      sampleManager.context.currentZswapLocalState ∧
    (updatePrivateState sampleManager 7).context.originalState =
      sampleManager.context.originalState ∧
    (updatePrivateState sampleManager 7).context.transactionContext =
      sampleManager.context.transactionContext := by
  refine ⟨?_, rfl, rfl, rfl, rfl⟩
  intro h
  have : (7 : Nat) = 0 := congrArg CircuitContext.currentPrivateState h
  exact absurd this (by decide)

/-- C8 amended: `setContext` (the write-back path of every
state-changing circuit call) replaces the stored context wholesale with
the supplied one, and the simulator-level setter delegates to it; the
state manager additionally exposes `updatePrivateState`, which updates
the single field `currentPrivateState` of the stored context in place. -/
theorem context_replacement_amended {P : Type} (m : BaseContractSimulator P)
    (c : CircuitContext P) (p : P) (s : SimState P) :
    (setContext m c).context = c ∧
    (setCircuitContext s c).stateManager = setContext s.stateManager c ∧
    getContext m = m.context ∧
    (updatePrivateState m p).context = { m.context with currentPrivateState := p } :=
  ⟨rfl, rfl, rfl, rfl⟩

/-- C4: when the vendor `initialState` throws for the given constructor
arguments, constructing the simulator propagates that same error and no
instance (hence no stored circuit context, and no reachable circuit
call) is ever produced. -/
theorem constructor_error_propagates {P Args E : Type}
    (initialState : ConstructorContext P → Args → Except E (InitialState P))
    (privateState : P) (coinPK : String) (contractAddress : Option String)
    (contractArgs : Args) (e : E)
    (h : initialState (constructorContext privateState coinPK) contractArgs = .error e) :
    mkBaseContractSimulator initialState privateState coinPK contractAddress
      contractArgs = .error e ∧
    ∀ b : BaseContractSimulator P,
      mkBaseContractSimulator initialState privateState coinPK contractAddress
        contractArgs ≠ .ok b := by
  refine ⟨?_, ?_⟩
  · simp [mkBaseContractSimulator, h]
  · intro b hb
    rw [mkBaseContractSimulator, h] at hb
    exact Except.noConfusion hb

/-- Witness for C4 at a concrete guarded `initialState`. -/
theorem constructor_error_propagates_witness :
    guardedInit (constructorContext 0 "00") false =
      .error "Initializable: contract already initialized" ∧
    mkBaseContractSimulator guardedInit 0 "00" none false =
      .error "Initializable: contract already initialized" :=
  ⟨rfl, (constructor_error_propagates guardedInit 0 "00" none false
    "Initializable: contract already initialized" rfl).1⟩

/-- C10: the caller override persists across calls: no impure, pure, or
direct circuit call (nor any sequence of impure calls) modifies the
stored override, and `setCaller` stores exactly the given value, so
every later call runs under the override until `setCaller` is invoked
again. -/
theorem caller_override_persists {P A R E : Type} (f : Circuit P A R E)
    (s : SimState P) (a : A) (c : Option String)
    (calls : List (Circuit P A R E × A)) :
    (impureCall f s a).2.callerOverride = s.callerOverride ∧
    (pureCall f s a).2.callerOverride = s.callerOverride ∧
    (receiveCoin f s a).2.callerOverride = s.callerOverride ∧
    (setCaller s c).callerOverride = c ∧
    (runImpure calls (setCaller s c)).callerOverride = c := by
  refine ⟨?_, rfl, ?_, rfl, ?_⟩
  · exact stepCall_callerOverride s (f, a)
  · unfold receiveCoin
    cases h : f (circuitContext s) a <;> simp [h, setCircuitContext, setContext]
  · rw [runImpure_callerOverride]
    rfl

/-- C2: after `setCaller(id)` every impure call runs with a context whose
Zswap local state is an empty one scoped to `id` (so the circuit observes
`id` as the effective caller), while after `setCaller(null)` — or on a
simulator whose override was never set — calls run with the simulator's
existing stored context unchanged; this holds for every call of a
subsequent impure sequence. -/
theorem set_caller_scopes_context {P A R E : Type} (s : SimState P)
    (id : String) (f : Circuit P A R E) (a : A)
    (m : BaseContractSimulator P) (calls : List (Circuit P A R E × A))
    (i : Nat) :
    getCallerContext (setCaller s (some id)) =
      { circuitContext s with currentZswapLocalState := emptyZswapLocalState id } ∧
    (getCallerContext (setCaller s (some id))).currentZswapLocalState.coinPublicKey
      = id ∧
    getCallerContext (setCaller s none) = circuitContext s ∧
    getCallerContext { stateManager := m, callerOverride := none } = getContext m ∧
    (impureCall f (setCaller s (some id)) a).1 =
      (f { circuitContext s with
           currentZswapLocalState := emptyZswapLocalState id } a).map
        CircuitResult.result ∧
    (impureCall f (setCaller s none) a).1 =
      (f (circuitContext s) a).map CircuitResult.result ∧
    (getCallerContext (stateBefore calls (setCaller s (some id)) i)).currentZswapLocalState
      = emptyZswapLocalState id := by
  refine ⟨rfl, rfl, rfl, rfl, ?_, ?_, ?_⟩
  · rw [impureCall_fst]
    rfl
  · rw [impureCall_fst]
    rfl
  · have hov : (stateBefore calls (setCaller s (some id)) i).callerOverride
        = some id := by
      unfold stateBefore
      rw [runImpure_callerOverride]
      rfl
    unfold getCallerContext
    rw [hov]

/-- C1: along any sequence of impure proxy calls on one simulator
instance, whenever call `i` succeeds and its underlying vendor
invocation returns `res`, the stored circuit context after call `i` is
exactly `res.context`, the call returned exactly `res.result`, and the
state read by the next call is exactly the state produced by call `i`
(no intermediate context is lost or skipped). -/
theorem impure_sequence_writeback {P A R E : Type}
    (calls : List (Circuit P A R E × A)) (s : SimState P) (i : Nat)
    (hi : i < calls.length) (res : CircuitResult P R)
    (hsucc : (calls.get ⟨i, hi⟩).1
        (getCallerContext (stateBefore calls s i)) (calls.get ⟨i, hi⟩).2
      = .ok res) :
    circuitContext (stateBefore calls s (i + 1)) = res.context ∧
    impureCall (calls.get ⟨i, hi⟩).1 (stateBefore calls s i)
        (calls.get ⟨i, hi⟩).2
      = (.ok res.result, stateBefore calls s (i + 1)) := by
  have hstep := stateBefore_succ calls s i hi
  constructor
  · rw [hstep]
    unfold stepCall impureCall
    rw [hsucc]
    rfl
  · rw [hstep]
    unfold stepCall impureCall
    rw [hsucc]

/-- Witness for C1 on a concrete two-call sequence. -/
theorem impure_sequence_writeback_witness :
    (sampleCalls.get ⟨1, by decide⟩).1
        (getCallerContext (stateBefore sampleCalls sampleState 1))
        (sampleCalls.get ⟨1, by decide⟩).2
      = .ok sampleRes ∧
    (circuitContext (stateBefore sampleCalls sampleState 2) = sampleRes.context ∧
     impureCall (sampleCalls.get ⟨1, by decide⟩).1
         (stateBefore sampleCalls sampleState 1)
         (sampleCalls.get ⟨1, by decide⟩).2
       = (.ok sampleRes.result, stateBefore sampleCalls sampleState 2)) :=
  ⟨rfl, impure_sequence_writeback sampleCalls sampleState 1 (by decide)
    sampleRes rfl⟩

mutual

/-- Per-entry agreement of the discovery walk with the
specification-side path collection. -/
theorem getCompactFilesEntry_eq (rel : String → String) (dirPath : String) :
    (e : FsEntry) →
      getCompactFilesEntry rel dirPath e = (compactPathsEntry dirPath e).map rel
  | .file name => by
      simp only [getCompactFilesEntry, compactPathsEntry]
      split <;> simp
  | .denied name => by simp [getCompactFilesEntry, compactPathsEntry]
  | .dir name readable entries => by
      simp only [getCompactFilesEntry, compactPathsEntry]
      cases readable with
      | true =>
          simpa using getCompactFilesList_eq rel (joinPath dirPath name) entries
      | false => simp

/-- Per-listing agreement of the discovery walk with the
specification-side path collection. -/
theorem getCompactFilesList_eq (rel : String → String) (dirPath : String) :
    (es : List FsEntry) →
      getCompactFilesList rel dirPath es = (compactPathsList dirPath es).map rel
  | [] => by simp [getCompactFilesList, compactPathsList]
  | e :: es => by
      simp only [getCompactFilesList, compactPathsList, List.map_append]
      rw [getCompactFilesEntry_eq rel dirPath e,
        getCompactFilesList_eq rel dirPath es]

end

/-- C5: `getCompactFiles` returns exactly the `.compact` files of the
accessible tree under the target directory, recursively, each expressed
through `rel` — Node `path.relative(SRC_DIR, ·)` — applied to its full
path; a directory that cannot be read yields `[]` (after a logged
warning) and an empty directory yields `[]`; as a total function it
never throws. -/
theorem getCompactFiles_spec (rel : String → String) (dirPath : String)
    (entries : List FsEntry) :
    getCompactFiles rel dirPath true entries =
      (compactPathsList dirPath entries).map rel ∧
    getCompactFiles rel dirPath false entries = [] ∧
    getCompactFiles rel dirPath true [] = [] :=
  ⟨getCompactFilesList_eq rel dirPath entries, rfl, rfl⟩

/-- C6 counterexample: with another flag present, supplying the skip-zk
option as the CLI flag `--skip-zk` and as the environment variable
`SKIP_ZK=true` does not produce the same configuration: the environment
spelling seeds the flag list first, so `['--foo', '--skip-zk']` yields
the flags string `"--foo --skip-zk"` while `['--foo']` with
`SKIP_ZK=true` yields `"--skip-zk --foo"`. -/
theorem fromArgs_env_order_counterexample :
    fromArgs ["--foo", "--skip-zk"] false = .ok cfgCli ∧
    fromArgs ["--foo"] true = .ok cfgEnv ∧
    cfgCli ≠ cfgEnv ∧
    fromArgs ["--foo", "--skip-zk"] false ≠ fromArgs ["--foo"] true := by
  refine ⟨rfl, rfl, by decide, ?_⟩
  intro h
  rw [show fromArgs ["--foo", "--skip-zk"] false = .ok cfgCli from rfl,
    show fromArgs ["--foo"] true = .ok cfgEnv from rfl] at h
  exact absurd (Except.ok.inj h) (by decide)

/-- C6 amended: when `--skip-zk` is the first command-line argument, the
CLI spelling produces exactly the same configuration (flags, target
directory, version) as the environment spelling `SKIP_ZK=true`, for
every argument array — including when both spellings are supplied at
once (the duplicate flag is dropped); when `--skip-zk` follows other
flags, only the order of the flags string may differ. -/
theorem fromArgs_skipZk_first_equiv (args : List String) :
    fromArgs ("--skip-zk" :: args) false = fromArgs args true ∧
    fromArgs ("--skip-zk" :: args) true = fromArgs args true := by
  have hp : parseBaseArgs ("--skip-zk" :: args) =
      match parseBaseArgs args with
      | .error e => .error e
      | .ok (td, rem) => .ok (td, "--skip-zk" :: rem) := by
    cases args with
    | nil => rfl
    | cons a as => rw [parseBaseArgs.eq_2, if_neg (by decide)]
  cases hq : parseBaseArgs args with
  | error e => simp [fromArgs, hp, hq]
  | ok p =>
      obtain ⟨td, rem⟩ := p
      have hloop : compilerFlagsLoop ("--skip-zk" :: rem) [] none =
          compilerFlagsLoop rem ["--skip-zk"] none := by
        rw [compilerFlagsLoop.eq_2, if_neg (by decide), if_neg (by decide)]
        rfl
      have hloop2 : compilerFlagsLoop ("--skip-zk" :: rem) ["--skip-zk"] none =
          compilerFlagsLoop rem ["--skip-zk"] none := by
        rw [compilerFlagsLoop.eq_2, if_neg (by decide), if_pos (by decide)]
      simp [fromArgs, hp, hq, hloop, hloop2]

end CompactSim
